import Mathlib

/-!
# MTGSCAN — shallow embedding of the capture-identify-translate pipeline

The repository is a set of near-duplicate React screens (src/unnamed/part_000
… part_006).  This file embeds, directly from the TypeScript source, the parts
of the pipeline the claims are about:

* per-pixel binarization (`preprocessImage` of part_000 lines 62-71, part_002
  lines 75-86, the inline threshold loop of part_003 lines 80-87);
* text cleaning (part_000 line 129, part_004 line 119, part_006 line 164);
* collector-info extraction, i.e. the JS regexes
  `/([A-Z]{3})\s*(\d+)/i` (part_000 line 131) and
  `/([A-Z0-9]{3,})\s*(\d+)/i` (part_001 line 107, part_004 line 487,
  part_006 line 160), modelled with an explicit leftmost-scan backtracking
  matcher that mirrors the JS engine on these two patterns;
* the disambiguation cascade (`searchByInfo`/`searchBySet`, `searchByName`,
  `searchMultipleFuzzy`, `fetchPTVersion`) and the translate action.

Remote calls are modelled by environments of pure functions: an `HttpResult`
distinguishes a parsed successful response, a response with `ok = false`, and
a thrown network / parse error.  React state (`result`, `error`, `loading`)
is modelled as an explicit `SessionState`; the purely cosmetic `debugText`
string is not tracked.  JS floating point arithmetic in the luminance
computation is modelled by exact rationals; the decimal weight sets used by
the code sum to exactly 1, so 0/255-valued pixels are mapped to luminance
0/255 in both models, which is all the binarization claims depend on.
-/

/-! ## Character classes (ASCII fragment of the JS regex classes) -/

/-- `A`–`Z`. -/
def isUpperAlpha (c : Char) : Bool := 'A' ≤ c && c ≤ 'Z'

/-- `a`–`z`. -/
def isLowerAlpha (c : Char) : Bool := 'a' ≤ c && c ≤ 'z'

/-- The JS class `[a-zA-Z]`. -/
def isLatinLetter (c : Char) : Bool := isUpperAlpha c || isLowerAlpha c

/-- The JS class `[0-9]` (`\d`). -/
def isDigitC (c : Char) : Bool := '0' ≤ c && c ≤ '9'

/-- The JS class `[A-Z0-9]` under the `i` flag: Latin letters and digits. -/
def isAlnumC (c : Char) : Bool := isLatinLetter c || isDigitC c

/-- The ASCII fragment of JS `\s` (space, tab, newline, carriage return,
vertical tab, form feed).  The scanned OCR strings are ASCII. -/
def isJsWs (c : Char) : Bool :=
  c = ' ' || c = '\t' || c = '\n' || c = '\r' || c = Char.ofNat 11 || c = Char.ofNat 12

/-! ## Pixels and binarization -/

/-- One RGBA pixel of a canvas `ImageData` buffer (`data[i] … data[i+3]`). -/
structure Pixel where
  r : ℕ
  g : ℕ
  b : ℕ
  a : ℕ
  deriving DecidableEq

/-- Luminance `0.2126 * r + 0.7152 * g + 0.0722 * b` (part_000 line 67,
part_004 line 73), in exact rational arithmetic. -/
def lum709 (p : Pixel) : ℚ :=
  0.2126 * (p.r : ℚ) + 0.7152 * (p.g : ℚ) + 0.0722 * (p.b : ℚ)

/-- Luminance `0.299 * r + 0.587 * g + 0.114 * b` (part_002 line 81). -/
def lum601 (p : Pixel) : ℚ :=
  0.299 * (p.r : ℚ) + 0.587 * (p.g : ℚ) + 0.114 * (p.b : ℚ)

/-- Channel average `(r + g + b) / 3` (part_003 line 83, part_006 line 126). -/
def avgRGB (p : Pixel) : ℚ := ((p.r : ℚ) + (p.g : ℚ) + (p.b : ℚ)) / 3

/-- Loop body of part_000's `preprocessImage`:
`v = lum > 130 ? 255 : 0; data[i] = data[i+1] = data[i+2] = v`
(the alpha byte `data[i+3]` is not written). -/
def binarizePixel_p0 (p : Pixel) : Pixel :=
  let v : ℕ := if 130 < lum709 p then 255 else 0
  ⟨v, v, v, p.a⟩

/-- Loop body of part_002's `preprocessImage`: threshold 140 on `lum601`. -/
def binarizePixel_p2 (p : Pixel) : Pixel :=
  let v : ℕ := if 140 < lum601 p then 255 else 0
  ⟨v, v, v, p.a⟩

/-- Loop body of part_003's inline threshold loop in `captureAndScan`:
`color = avg > 128 ? 255 : 0`. -/
def binarizePixel_p3 (p : Pixel) : Pixel :=
  let v : ℕ := if 128 < avgRGB p then 255 else 0
  ⟨v, v, v, p.a⟩

/-- part_000's `preprocessImage` over the pixel sequence of the region
(the `for (i += 4)` loop visits each pixel once, independently). -/
def preprocessImage_p0 : List Pixel → List Pixel
  | [] => []
  | p :: rest => binarizePixel_p0 p :: preprocessImage_p0 rest

/-- part_002's `preprocessImage` over the pixel sequence. -/
def preprocessImage_p2 : List Pixel → List Pixel
  | [] => []
  | p :: rest => binarizePixel_p2 p :: preprocessImage_p2 rest

/-- part_003's inline threshold loop over the pixel sequence. -/
def preprocessImage_p3 : List Pixel → List Pixel
  | [] => []
  | p :: rest => binarizePixel_p3 p :: preprocessImage_p3 rest

/-! ## Card data, session state and the remote-call environments -/

/-- The `CardData` record returned by the catalog (the fields the pipeline
reads; `image_uris`, `set` and `collector_number` play no role in the
claims). -/
structure CardData where
  name : String
  printed_name : Option String := none
  type_line : String := ""
  oracle_text : Option String := none
  printed_text : Option String := none
  translated_text : Option String := none
  lang : String
  deriving DecidableEq

/-- The session-scoped React state touched by the pipeline:
`result`, `error` and the `loading` busy flag. -/
structure SessionState where
  result : Option CardData
  error : Option String
  loading : Bool
  deriving DecidableEq

/-- Outcome of one `fetch` + `json()` round trip: a parsed body from an
`ok` response, a response with `ok = false`, or a thrown network / parse
error. -/
inductive HttpResult (α : Type) where
  | success : α → HttpResult α
  | failure : HttpResult α
  | netError : HttpResult α
  deriving DecidableEq

/-- The Scryfall endpoints the cascade consumes.  `autocomplete` carries the
`data` array of suggestions (the code never checks `ok` on that call, so a
non-`ok` JSON body without a `data` array is `failure`); `ptSearch` is the
`search?q=!"name"+lang:pt` endpoint and carries its `data` array. -/
structure LookupEnv where
  byInfo : String → String → HttpResult CardData
  autocomplete : String → HttpResult (List String)
  fuzzy : String → HttpResult CardData
  ptSearch : String → HttpResult (List CardData)

/-- The translation endpoint: `none` models a thrown fetch / parse error. -/
structure TransEnv where
  translate : String → Option String

/-! ## Localization state: `fetchPTVersion` -/

/-- `fetchPTVersion` of part_000 lines 179-197 (textually identical in
part_001 lines 146-159, part_004 lines 537-555, part_006 lines 194-207):
already-`pt` records pass through; otherwise the first hit of the
`lang:pt` search replaces the record, and any miss or error keeps it. -/
def fetchPTVersion (env : LookupEnv) (card : CardData) : CardData :=
  if card.lang = "pt" then card
  else
    match env.ptSearch card.name with
    | .success (h :: _) => h
    | .success [] => card
    | .failure => card
    | .netError => card

/-- The state effect of `fetchPTVersion`: it only ever calls `setResult`. -/
def fetchPTVersionRun (env : LookupEnv) (st : SessionState) (card : CardData) :
    SessionState :=
  { st with result := some (fetchPTVersion env card) }

/-- part_002's `fetchPTVersion` (lines 159-177) differs: on a localization
miss it stores `{ ...cardData, translated_text: undefined }`. -/
def fetchPTVersion_p2 (env : LookupEnv) (card : CardData) : CardData :=
  if card.lang = "pt" then card
  else
    match env.ptSearch card.name with
    | .success (h :: _) => h
    | .success [] => { card with translated_text := none }
    | .failure => { card with translated_text := none }
    | .netError => { card with translated_text := none }

/-! ## Set+Number state and Name state -/

/-- part_000's `searchByInfo` (lines 152-162): on a parsed `ok` response the
record goes to the Localization state; on any failure (`!response.ok`
throws into the `catch`, as does a network error) the function only sets an
error message — it does not issue a name search. -/
def searchByInfo_p0 (env : LookupEnv) (st : SessionState) (set num : String) :
    SessionState :=
  match env.byInfo set.toLower num with
  | .success d => fetchPTVersionRun env st d
  | .failure =>
      { st with error := some ("Informação de coleção lida, mas não encontrada. Refazendo por nome...") }
  | .netError =>
      { st with error := some ("Informação de coleção lida, mas não encontrada. Refazendo por nome...") }

/-- part_000's `searchByName` (lines 164-177): autocomplete first (its `ok`
status is never checked, so a JSON body without a `data` array behaves like
an empty suggestion list); a non-empty suggestion list refines the query,
otherwise the candidate itself is used; any thrown error or non-`ok` fuzzy
response lands in the `catch`, which reports the card as unrecognized. -/
def searchByName_p0 (env : LookupEnv) (st : SessionState) (name : String) :
    SessionState :=
  match env.autocomplete name with
  | .netError => { st with error := some ("Carta não reconhecida.") }
  | auto =>
      let targetName : String :=
        match auto with
        | .success (s :: _) => s
        | _ => name
      match env.fuzzy targetName with
      | .success d => fetchPTVersionRun env st d
      | .failure => { st with error := some ("Carta não reconhecida.") }
      | .netError => { st with error := some ("Carta não reconhecida.") }

/-- part_006's `searchByName` (lines 184-192): same refinement policy as
part_000, but a thrown error is swallowed by an empty `catch` (state
unchanged) and only a non-`ok` fuzzy response reports an error. -/
def searchByName_p6 (env : LookupEnv) (st : SessionState) (name : String) :
    SessionState :=
  match env.autocomplete name with
  | .netError => st
  | auto =>
      let target : String :=
        match auto with
        | .success (s :: _) => s
        | _ => name
      match env.fuzzy target with
      | .success d => fetchPTVersionRun env st d
      | .failure => { st with error := some ("Carta não encontrada.") }
      | .netError => st

/-- part_006's `searchBySet` (lines 176-182): an `ok` response goes to the
Localization state; a non-`ok` response falls back to
`searchByName(set + " " + num)`; a thrown network error is swallowed by the
empty `catch` (state unchanged). -/
def searchBySet_p6 (env : LookupEnv) (st : SessionState) (set num : String) :
    SessionState :=
  match env.byInfo set.toLower num with
  | .success d => fetchPTVersionRun env st d
  | .failure => searchByName_p6 env st (set ++ " " ++ num)
  | .netError => st

/-- The lower half of part_000's `searchByName` — the fuzzy lookup issued
with an already-refined query string.  Used to state which query string the
fuzzy call receives. -/
def fuzzyStep_p0 (env : LookupEnv) (st : SessionState) (q : String) :
    SessionState :=
  match env.fuzzy q with
  | .success d => fetchPTVersionRun env st d
  | .failure => { st with error := some ("Carta não reconhecida.") }
  | .netError => { st with error := some ("Carta não reconhecida.") }

/-- part_002's `searchMultipleFuzzy` (lines 138-157): for each candidate
line, query autocomplete; only when the suggestion list is non-empty is a
fuzzy lookup issued (with the top suggestion); a candidate with no
suggestions — or any thrown error — is skipped and the loop continues.
Returns the updated state and the `found` flag. -/
def searchMultipleFuzzy_p2 (env : LookupEnv) (st : SessionState) :
    List String → SessionState × Bool
  | [] => (st, false)
  | line :: rest =>
      match env.autocomplete line with
      | .success (g :: _) =>
          match env.fuzzy g with
          | .success d => ({ st with result := some (fetchPTVersion_p2 env d) }, true)
          | .failure => searchMultipleFuzzy_p2 env st rest
          | .netError => searchMultipleFuzzy_p2 env st rest
      | .success [] => searchMultipleFuzzy_p2 env st rest
      | .failure => searchMultipleFuzzy_p2 env st rest
      | .netError => searchMultipleFuzzy_p2 env st rest

/-! ## Translation action -/

/-- part_000's `translateText` (lines 199-212).  The guard
`if (!result || !result.oracle_text) return;` returns before the busy flag
is touched; an empty string is falsy in JS, so it also short-circuits.
Otherwise the call runs under the busy flag (cleared in `finally`): success
attaches the concatenated segments as `translated_text`, failure sets an
error message and leaves the record alone. -/
def translateText_p0 (env : TransEnv) (st : SessionState) : SessionState :=
  match st.result with
  | none => st
  | some card =>
      match card.oracle_text with
      | none => st
      | some txt =>
          if txt = "" then st
          else
            match env.translate txt with
            | some tr =>
                { st with result := some { card with translated_text := some tr },
                          loading := false }
            | none =>
                { st with error := some ("Erro na tradução."), loading := false }

/-- part_002's `translateText` (lines 179-192) — identical control flow,
different message string. -/
def translateText_p2 (env : TransEnv) (st : SessionState) : SessionState :=
  match st.result with
  | none => st
  | some card =>
      match card.oracle_text with
      | none => st
      | some txt =>
          if txt = "" then st
          else
            match env.translate txt with
            | some tr =>
                { st with result := some { card with translated_text := some tr },
                          loading := false }
            | none =>
                { st with error := some ("Erro ao traduzir."), loading := false }

/-! ## Text cleaning -/

/-- JS `String.prototype.trim`: drop leading and trailing whitespace. -/
def trimChars (l : List Char) : List Char :=
  ((l.dropWhile isJsWs).reverse.dropWhile isJsWs).reverse

/-- part_000 line 129: `nameText.trim().replace(/[^a-zA-Z\s]/g, ' ')` —
trim first, then substitute a space for every character outside
`[a-zA-Z\s]`. -/
def cleanName_p0 (s : String) : String :=
  String.mk ((trimChars s.data).map
    (fun c => if isLatinLetter c || isJsWs c then c else ' '))

/-- One step of JS `replace(/\s+/g, ' ')`: the flag records whether the
previous character was whitespace (i.e. the run was already replaced). -/
def collapseWsAux : Bool → List Char → List Char
  | _, [] => []
  | prevWs, c :: cs =>
      if isJsWs c then
        if prevWs then collapseWsAux true cs else ' ' :: collapseWsAux true cs
      else c :: collapseWsAux false cs

/-- JS `replace(/\s+/g, ' ')`: each maximal whitespace run becomes one
space. -/
def collapseWs (l : List Char) : List Char := collapseWsAux false l

/-- part_004 line 119:
`text.trim().replace(/[^a-zA-Z\s]/g, ' ').replace(/\s+/g, ' ')`. -/
def cleanName_p4 (s : String) : String :=
  String.mk (collapseWs ((trimChars s.data).map
    (fun c => if isLatinLetter c || isJsWs c then c else ' ')))

/-- part_006 line 164 (same in part_001 line 111, part_003 line 94):
`titleText.trim().replace(/[^a-zA-Z\s]/g, '')` — the substitution deletes
the character instead of spacing it. -/
def cleanName_p6 (s : String) : String :=
  String.mk ((trimChars s.data).filter (fun c => isLatinLetter c || isJsWs c))

/-! ## Collector-info extraction: the two JS regexes

The JS engine scans for the leftmost start position admitting a match and,
at that position, resolves the quantifiers greedily with backtracking.  For
the two concrete patterns used here the backtracking space collapses:

* `\s*(\d+)`: once `\s*` has consumed the maximal whitespace run, giving
  back characters only re-exposes whitespace, never a digit, so `\s*(\d+)`
  matches exactly when the maximal whitespace run is followed by a digit;
* `([A-Z0-9]{3,})` starts from the maximal alphanumeric run and gives back
  one trailing character at a time, stopping at length 3.
-/

/-- Drop the maximal leading whitespace run (the committed `\s*`). -/
def dropWs : List Char → List Char
  | [] => []
  | c :: cs => if isJsWs c then dropWs cs else c :: cs

/-- Maximal leading digit run (the greedy `\d+`, which never gives back
characters because nothing follows it in the pattern). -/
def takeDigits : List Char → List Char
  | [] => []
  | c :: cs => if isDigitC c then c :: takeDigits cs else []

/-- Maximal leading alphanumeric run (the greedy first take of
`[A-Z0-9]{3,}` under `i`). -/
def takeAlnum : List Char → List Char
  | [] => []
  | c :: cs => if isAlnumC c then c :: takeAlnum cs else []

/-- Match `\s*(\d+)` at the head of `l`; return the digit group. -/
def matchTail (l : List Char) : Option (List Char) :=
  let ds := takeDigits (dropWs l)
  if ds = [] then none else some ds

/-- Backtracking over the group-1 length for `([A-Z0-9]{3,})\s*(\d+)`:
`g1rev` is the reversed current take of group 1, `rest` the remaining
input.  Try the current take; on failure give the last character back to
the input, stopping below length 3. -/
def tryG1 : List Char → List Char → Option (List Char × List Char)
  | [], _ => none
  | c :: g1rev, rest =>
      if 3 ≤ (c :: g1rev).length then
        match matchTail rest with
        | some g2 => some ((c :: g1rev).reverse, g2)
        | none => tryG1 g1rev (c :: rest)
      else none

/-- Attempt `([A-Z0-9]{3,})\s*(\d+)` anchored at the head of `l`. -/
def tryStartG (l : List Char) : Option (List Char × List Char) :=
  tryG1 (takeAlnum l).reverse (l.drop (takeAlnum l).length)

/-- Leftmost search for `/([A-Z0-9]{3,})\s*(\d+)/i`: the JS engine advances
the start position one character at a time until an anchored attempt
succeeds. -/
def findInfoMatch : List Char → Option (List Char × List Char)
  | [] => none
  | c :: cs =>
      match tryStartG (c :: cs) with
      | some r => some r
      | none => findInfoMatch cs

/-- Attempt `([A-Z]{3})\s*(\d+)` anchored at the head of `l`: the exact
quantifier `{3}` admits no backtracking. -/
def tryStart3 (l : List Char) : Option (List Char × List Char) :=
  match l with
  | c1 :: c2 :: c3 :: rest =>
      if isLatinLetter c1 && isLatinLetter c2 && isLatinLetter c3 then
        match matchTail rest with
        | some g2 => some ([c1, c2, c3], g2)
        | none => none
      else none
  | _ => none

/-- Leftmost search for `/([A-Z]{3})\s*(\d+)/i` (part_000 line 131). -/
def findInfoMatch3 : List Char → Option (List Char × List Char)
  | [] => none
  | c :: cs =>
      match tryStart3 (c :: cs) with
      | some r => some r
      | none => findInfoMatch3 cs

/-- `infoText.match(/([A-Z0-9]{3,})\s*(\d+)/i)` followed by the use of
`codes[1]` and `codes[2]` as they are (part_001 line 107-109, part_004
line 487, part_006 line 160): no case change is applied to the groups. -/
def extractCodes (s : String) : Option (String × String) :=
  (findInfoMatch s.data).map (fun p => (String.mk p.1, String.mk p.2))

/-- JS `toUpperCase` on the ASCII letters the `[A-Z]{3}` group can hold. -/
def toUpperChar (c : Char) : Char :=
  if isLowerAlpha c then Char.ofNat (c.toNat - 32) else c

/-- part_000 lines 131-133: `match(/([A-Z]{3})\s*(\d+)/i)`, then
`setCode = infoMatch[1].toUpperCase()` and `collectorNum = infoMatch[2]`. -/
def extractInfo_p0 (s : String) : Option (String × String) :=
  (findInfoMatch3 s.data).map (fun p => (String.mk (p.1.map toUpperChar), String.mk p.2))

/-! ## Scan decision (the branch on the extracted fields) -/

/-- part_000 lines 137-143: set and number extracted → Set+Number state;
otherwise a cleaned name longer than 3 → Name state; otherwise an error. -/
def scanDecision_p0 (env : LookupEnv) (st : SessionState)
    (nameText infoText : String) : SessionState :=
  match extractInfo_p0 infoText with
  | some (set, num) => searchByInfo_p0 env st set num
  | none =>
      let cleanName := cleanName_p0 nameText
      if 3 < cleanName.length then searchByName_p0 env st cleanName
      else { st with error := some ("Não consegui identificar a carta. Tente alinhar o rodapé.") }

/-- part_006 lines 160-167: codes matched → `searchBySet`; otherwise a
cleaned title longer than 3 → `searchByName`; otherwise an error. -/
def scanDecision_p6 (env : LookupEnv) (st : SessionState)
    (titleText infoText : String) : SessionState :=
  match extractCodes infoText with
  | some (set, num) => searchBySet_p6 env st set num
  | none =>
      let cleanTitle := cleanName_p6 titleText
      if 3 < cleanTitle.length then searchByName_p6 env st cleanTitle
      else { st with error := some ("Imagem borrada. Tente afastar um pouco ou limpar a lente.") }

/-! ## Helper lemmas: binarization -/

theorem lum709_const (v a : ℕ) : lum709 ⟨v, v, v, a⟩ = v := by
  unfold lum709
  push_cast
  ring_nf

theorem lum601_const (v a : ℕ) : lum601 ⟨v, v, v, a⟩ = v := by
  unfold lum601
  push_cast
  ring_nf

theorem avgRGB_const (v a : ℕ) : avgRGB ⟨v, v, v, a⟩ = v := by
  unfold avgRGB
  push_cast
  ring_nf

theorem binarizePixel_p0_idem (p : Pixel) :
    binarizePixel_p0 (binarizePixel_p0 p) = binarizePixel_p0 p := by
  unfold binarizePixel_p0
  by_cases h : (130 : ℚ) < lum709 p
  · simp only [if_pos h]
    simp [lum709_const]
    norm_num
  · simp only [if_neg h]
    simp [lum709_const]

theorem binarizePixel_p2_idem (p : Pixel) :
    binarizePixel_p2 (binarizePixel_p2 p) = binarizePixel_p2 p := by
  unfold binarizePixel_p2
  by_cases h : (140 : ℚ) < lum601 p
  · simp only [if_pos h]
    simp [lum601_const]
    norm_num
  · simp only [if_neg h]
    simp [lum601_const]

theorem binarizePixel_p3_idem (p : Pixel) :
    binarizePixel_p3 (binarizePixel_p3 p) = binarizePixel_p3 p := by
  unfold binarizePixel_p3
  by_cases h : (128 : ℚ) < avgRGB p
  · simp only [if_pos h]
    simp [avgRGB_const]
    norm_num
  · simp only [if_neg h]
    simp [avgRGB_const]

theorem binarizePixel_p0_spec (p : Pixel) :
    (binarizePixel_p0 p).r = (binarizePixel_p0 p).g ∧
    (binarizePixel_p0 p).b = (binarizePixel_p0 p).g ∧
    ((binarizePixel_p0 p).r = 0 ∨ (binarizePixel_p0 p).r = 255) ∧
    (binarizePixel_p0 p).a = p.a := by
  unfold binarizePixel_p0
  by_cases h : (130 : ℚ) < lum709 p
  · simp [h]
  · simp [h]

theorem binarizePixel_p2_spec (p : Pixel) :
    (binarizePixel_p2 p).r = (binarizePixel_p2 p).g ∧
    (binarizePixel_p2 p).b = (binarizePixel_p2 p).g ∧
    ((binarizePixel_p2 p).r = 0 ∨ (binarizePixel_p2 p).r = 255) ∧
    (binarizePixel_p2 p).a = p.a := by
  unfold binarizePixel_p2
  by_cases h : (140 : ℚ) < lum601 p
  · simp [h]
  · simp [h]

theorem preprocessImage_p0_eq_map (l : List Pixel) :
    preprocessImage_p0 l = l.map binarizePixel_p0 := by
  induction l with
  | nil => rfl
  | cons p rest ih => simp [preprocessImage_p0, ih]

theorem preprocessImage_p2_eq_map (l : List Pixel) :
    preprocessImage_p2 l = l.map binarizePixel_p2 := by
  induction l with
  | nil => rfl
  | cons p rest ih => simp [preprocessImage_p2, ih]

theorem preprocessImage_p3_eq_map (l : List Pixel) :
    preprocessImage_p3 l = l.map binarizePixel_p3 := by
  induction l with
  | nil => rfl
  | cons p rest ih => simp [preprocessImage_p3, ih]

/-! ## C5 — binarization is deterministic and idempotent -/

/-- C5: binarization (a pure function of the pixel data, hence
deterministic) is idempotent for all three cited variants — part_000's
`preprocessImage` (Rec. 709 weights, threshold 130), part_002's
`preprocessImage` (Rec. 601 weights, threshold 140) and part_003's inline
threshold loop (channel average, threshold 128): re-applying it to an
already-binarized pixel buffer returns the buffer unchanged. -/
theorem preprocess_idempotent (img : List Pixel) :
    preprocessImage_p0 (preprocessImage_p0 img) = preprocessImage_p0 img ∧
    preprocessImage_p2 (preprocessImage_p2 img) = preprocessImage_p2 img ∧
    preprocessImage_p3 (preprocessImage_p3 img) = preprocessImage_p3 img := by
  refine ⟨?_, ?_, ?_⟩ <;>
    simp [preprocessImage_p0_eq_map, preprocessImage_p2_eq_map,
      preprocessImage_p3_eq_map, List.map_map, Function.comp_def,
      binarizePixel_p0_idem, binarizePixel_p2_idem, binarizePixel_p3_idem]

/-! ## C9 — binarized pixels are pure black/white with untouched alpha -/

/-- C9: for every input pixel buffer and every position, the binarization
of part_000 and of part_002 produces a pixel whose red, green and blue
channels are equal and each 0 or 255, and whose alpha channel is the input
pixel's alpha (the loop never writes `data[i+3]`). -/
theorem preprocess_channel_invariant (img : List Pixel) (i : ℕ)
    (h : i < img.length) :
    (∃ q : Pixel, (preprocessImage_p0 img)[i]? = some q ∧
       q.r = q.g ∧ q.b = q.g ∧ (q.r = 0 ∨ q.r = 255) ∧
       ∃ p : Pixel, img[i]? = some p ∧ q.a = p.a) ∧
    (∃ q : Pixel, (preprocessImage_p2 img)[i]? = some q ∧
       q.r = q.g ∧ q.b = q.g ∧ (q.r = 0 ∨ q.r = 255) ∧
       ∃ p : Pixel, img[i]? = some p ∧ q.a = p.a) := by
  have hget : img[i]? = some img[i] := List.getElem?_eq_getElem h
  constructor
  · refine ⟨binarizePixel_p0 img[i], ?_, ?_, ?_, ?_, img[i], hget, ?_⟩
    · simp [preprocessImage_p0_eq_map, List.getElem?_map, hget]
    · exact (binarizePixel_p0_spec _).1
    · exact (binarizePixel_p0_spec _).2.1
    · exact (binarizePixel_p0_spec _).2.2.1
    · exact (binarizePixel_p0_spec _).2.2.2
  · refine ⟨binarizePixel_p2 img[i], ?_, ?_, ?_, ?_, img[i], hget, ?_⟩
    · simp [preprocessImage_p2_eq_map, List.getElem?_map, hget]
    · exact (binarizePixel_p2_spec _).1
    · exact (binarizePixel_p2_spec _).2.1
    · exact (binarizePixel_p2_spec _).2.2.1
    · exact (binarizePixel_p2_spec _).2.2.2

/-- Witness for C9 at a concrete one-pixel buffer. -/
theorem preprocess_channel_invariant_witness :
    (∃ q : Pixel, (preprocessImage_p0 [⟨200, 10, 10, 77⟩])[0]? = some q ∧
       q.r = q.g ∧ q.b = q.g ∧ (q.r = 0 ∨ q.r = 255) ∧
       ∃ p : Pixel, ([(⟨200, 10, 10, 77⟩ : Pixel)])[0]? = some p ∧ q.a = p.a) ∧
    (∃ q : Pixel, (preprocessImage_p2 [⟨200, 10, 10, 77⟩])[0]? = some q ∧
       q.r = q.g ∧ q.b = q.g ∧ (q.r = 0 ∨ q.r = 255) ∧
       ∃ p : Pixel, ([(⟨200, 10, 10, 77⟩ : Pixel)])[0]? = some p ∧ q.a = p.a) :=
  preprocess_channel_invariant [⟨200, 10, 10, 77⟩] 0 (by decide)

/-! ## Concrete fixtures for witnesses and counterexamples -/

def cardBolt : CardData :=
  { name := "Lightning Bolt", type_line := "Instant",
    oracle_text := some ("Lightning Bolt deals 3 damage to any target."),
    lang := "en" }

def cardBoltPT : CardData :=
  { name := "Lightning Bolt", printed_name := some ("Raio"),
    type_line := "Instant", lang := "pt" }

def st0 : SessionState := { result := none, error := none, loading := false }

def stBolt : SessionState :=
  { result := some cardBolt, error := none, loading := false }

def transOk : TransEnv :=
  { translate := fun _ => some ("Raio causa 3 pontos de dano a qualquer alvo.") }

def transFail : TransEnv := { translate := fun _ => none }

def envPT : LookupEnv :=
  { byInfo := fun _ _ => .failure
    autocomplete := fun _ => .failure
    fuzzy := fun _ => .failure
    ptSearch := fun _ => .success [cardBoltPT] }

/-! ## C2 — Localization state behaviour of `fetchPTVersion` -/

/-- C2: a record whose language is already the target locale (`pt`) is
stored as the final result unchanged; otherwise the same-canonical-name
`lang:pt` search runs, and a non-empty hit list makes its *first* hit
replace the record wholesale, while an empty hit list, a non-`ok` response
or a thrown error retains the original record — and in every case the
error message and the busy flag are untouched. -/
theorem fetchPT_localization (env : LookupEnv) (st : SessionState) (card : CardData) :
    (card.lang = "pt" → fetchPTVersionRun env st card = { st with result := some card }) ∧
    (∀ hd tl, env.ptSearch card.name = .success (hd :: tl) → card.lang ≠ "pt" →
       fetchPTVersionRun env st card = { st with result := some hd }) ∧
    (card.lang ≠ "pt" →
       (env.ptSearch card.name = .success [] ∨ env.ptSearch card.name = .failure ∨
        env.ptSearch card.name = .netError) →
       fetchPTVersionRun env st card = { st with result := some card }) ∧
    (fetchPTVersionRun env st card).error = st.error ∧
    (fetchPTVersionRun env st card).loading = st.loading := by
  refine ⟨?_, ?_, ?_, rfl, rfl⟩
  · intro h
    simp [fetchPTVersionRun, fetchPTVersion, h]
  · intro hd tl hsearch h
    simp [fetchPTVersionRun, fetchPTVersion, h, hsearch]
  · intro h hmiss
    rcases hmiss with hm | hm | hm <;>
      simp [fetchPTVersionRun, fetchPTVersion, h, hm]

/-- Witness for C2: an English record is replaced wholesale by the first
`lang:pt` hit. -/
theorem fetchPT_localization_witness :
    fetchPTVersionRun envPT st0 cardBolt = { st0 with result := some cardBoltPT } :=
  (fetchPT_localization envPT st0 cardBolt).2.1 cardBoltPT [] rfl (by decide)

/-! ## C7 — translation is idempotent and overwrites -/

/-- C7: with a deterministic translation backend, running the translate
action of part_000 twice on an unchanged session yields the same state as
running it once; and each successful invocation stores the fresh
translation over whatever `translated_text` the record carried. -/
theorem translateText_idempotent (env : TransEnv) (st : SessionState) :
    translateText_p0 env (translateText_p0 env st) = translateText_p0 env st ∧
    (∀ card txt tr, st.result = some card → card.oracle_text = some txt → txt ≠ "" →
       env.translate txt = some tr →
       (translateText_p0 env st).result = some { card with translated_text := some tr }) := by
  constructor
  · rcases hres : st.result with _ | card
    · simp [translateText_p0, hres]
    · rcases hor : card.oracle_text with _ | txt
      · simp [translateText_p0, hres, hor]
      · by_cases htxt : txt = ""
        · simp [translateText_p0, hres, hor, htxt]
        · rcases htr : env.translate txt with _ | tr
          · simp [translateText_p0, hres, hor, htxt, htr]
          · simp [translateText_p0, hres, hor, htxt, htr]
  · intro card txt tr h1 h2 h3 h4
    simp [translateText_p0, h1, h2, h3, h4]

/-- Witness for C7: a concrete successful translation lands in
`translated_text` (and hence a second run reproduces it). -/
theorem translateText_idempotent_witness :
    (translateText_p0 transOk stBolt).result =
      some { cardBolt with
               translated_text := some ("Raio causa 3 pontos de dano a qualquer alvo.") } :=
  (translateText_idempotent transOk stBolt).2 cardBolt
    ("Lightning Bolt deals 3 damage to any target.")
    ("Raio causa 3 pontos de dano a qualquer alvo.") rfl rfl (by decide) rfl

/-! ## C8 — translation failure leaves the record alone -/

/-- C8: when the translation call throws, both cited variants keep
`result` (hence every field of the displayed record, including
`translated_text`) exactly as it was and surface a user-visible error
message instead. -/
theorem translateText_failure_isolated (env : TransEnv) (st : SessionState)
    (card : CardData) (txt : String)
    (h1 : st.result = some card) (h2 : card.oracle_text = some txt)
    (h3 : txt ≠ "") (h4 : env.translate txt = none) :
    (translateText_p0 env st).result = st.result ∧
    (translateText_p0 env st).error = some ("Erro na tradução.") ∧
    (translateText_p2 env st).result = st.result ∧
    (translateText_p2 env st).error = some ("Erro ao traduzir.") := by
  refine ⟨?_, ?_, ?_, ?_⟩ <;>
    simp [translateText_p0, translateText_p2, h1, h2, h3, h4]

/-- Witness for C8 at a concrete failing backend. -/
theorem translateText_failure_isolated_witness :
    (translateText_p0 transFail stBolt).result = stBolt.result ∧
    (translateText_p0 transFail stBolt).error = some ("Erro na tradução.") ∧
    (translateText_p2 transFail stBolt).result = stBolt.result ∧
    (translateText_p2 transFail stBolt).error = some ("Erro ao traduzir.") :=
  translateText_failure_isolated transFail stBolt cardBolt
    ("Lightning Bolt deals 3 damage to any target.") rfl rfl (by decide) rfl

/-! ## C10 — translate without a record (or without rules text) is a no-op -/

/-- C10: if no card is displayed, or the displayed card has no original
rules text (absent, or the empty string — falsy in JS), the translate
action of part_000 and of part_002 returns before touching anything: the
whole session state (record, error message, busy flag) is unchanged, for
every translation backend — i.e. no request is issued. -/
theorem translateText_noop (env : TransEnv) (st : SessionState)
    (h : st.result = none ∨ ∃ card, st.result = some card ∧
        (card.oracle_text = none ∨ card.oracle_text = some "")) :
    translateText_p0 env st = st ∧ translateText_p2 env st = st := by
  rcases h with h | ⟨card, hc, ho | ho⟩ <;>
    simp [translateText_p0, translateText_p2, *]

/-- Witness for C10 with no displayed record. -/
theorem translateText_noop_witness :
    translateText_p0 transOk st0 = st0 ∧ translateText_p2 transOk st0 = st0 :=
  translateText_noop transOk st0 (Or.inl rfl)

/-! ## C1 — what actually happens when the set+number lookup fails -/

def envNotFound : LookupEnv :=
  { byInfo := fun _ _ => .failure
    autocomplete := fun _ => .success ["Lightning Bolt"]
    fuzzy := fun _ => .success cardBolt
    ptSearch := fun _ => .failure }

def envNetDown : LookupEnv :=
  { byInfo := fun _ _ => .netError
    autocomplete := fun _ => .success ["Lightning Bolt"]
    fuzzy := fun _ => .success cardBolt
    ptSearch := fun _ => .failure }

/-- C1 (amended): in the variant that implements the fallback
(part_006's `searchBySet`, same shape in part_001), a *not-found* response
falls through to the Name state with the extracted set code and collector
number joined by a single space, and a subsequent successful name match
does produce a final displayed result; a thrown *network error*, however,
is swallowed and no fallback occurs.  In part_000's `searchByInfo` no
fallback exists at all: any failure only sets an error message and keeps
the previous result. -/
theorem setNumber_fallback (env : LookupEnv) (st : SessionState) (set num : String) :
    (env.byInfo set.toLower num = .failure →
       searchBySet_p6 env st set num = searchByName_p6 env st (set ++ " " ++ num)) ∧
    (env.byInfo set.toLower num = .netError → searchBySet_p6 env st set num = st) ∧
    (∀ s rest d, env.byInfo set.toLower num = .failure →
       env.autocomplete (set ++ " " ++ num) = .success (s :: rest) →
       env.fuzzy s = .success d →
       (searchBySet_p6 env st set num).result = some (fetchPTVersion env d)) ∧
    ((env.byInfo set.toLower num = .failure ∨ env.byInfo set.toLower num = .netError) →
       (searchByInfo_p0 env st set num).result = st.result ∧
       (searchByInfo_p0 env st set num).error =
         some ("Informação de coleção lida, mas não encontrada. Refazendo por nome...")) := by
  refine ⟨?_, ?_, ?_, ?_⟩
  · intro h
    simp [searchBySet_p6, h]
  · intro h
    simp [searchBySet_p6, h]
  · intro s rest d h hauto hfuzzy
    simp [searchBySet_p6, h, searchByName_p6, hauto, hfuzzy, fetchPTVersionRun]
  · rintro (h | h) <;> simp [searchByInfo_p0, h]

/-- Counterexample for C1 as stated: with extracted codes `MID 245`, a
failing exact lookup and a name path that would succeed, part_000's scan
ends with no displayed result (only an error message), and part_006's
`searchBySet` on a network error leaves the state untouched — no fallback
query is issued in either case. -/
theorem setNumber_fallback_cex :
    (scanDecision_p0 envNotFound st0 ("Lightning Bolt") ("MID 245")).result = none ∧
    envNotFound.fuzzy ("MID 245") = .success cardBolt ∧
    searchBySet_p6 envNetDown st0 ("MID") ("245") = st0 ∧
    envNetDown.fuzzy ("MID 245") = .success cardBolt := by
  refine ⟨?_, rfl, rfl, rfl⟩
  decide

/-- Witness for C1 (amended): a not-found set+number lookup followed by a
successful name match yields a final displayed result. -/
theorem setNumber_fallback_witness :
    (searchBySet_p6 envNotFound st0 ("MID") ("245")).result =
      some (fetchPTVersion envNotFound cardBolt) :=
  (setNumber_fallback envNotFound st0 ("MID") ("245")).2.2.1 ("Lightning Bolt") [] cardBolt
    rfl rfl rfl

/-! ## C6 — how the Name state uses autocomplete -/

def envNoSuggest : LookupEnv :=
  { byInfo := fun _ _ => .failure
    autocomplete := fun _ => .success []
    fuzzy := fun _ => .success cardBolt
    ptSearch := fun _ => .failure }

/-- C6 (amended): in `searchByName` (part_000), a non-empty suggestion
list makes the top suggestion the fuzzy-lookup query and an empty (or
`data`-less) autocomplete response makes the raw candidate the query; but
in part_002's `searchMultipleFuzzy` a candidate whose autocomplete returns
no suggestion is *skipped* — the loop moves to the next candidate without
issuing any fuzzy lookup for it. -/
theorem nameState_refined_query (env : LookupEnv) (st : SessionState) (cand : String) :
    (∀ s rest, env.autocomplete cand = .success (s :: rest) →
       searchByName_p0 env st cand = fuzzyStep_p0 env st s) ∧
    ((env.autocomplete cand = .success [] ∨ env.autocomplete cand = .failure) →
       searchByName_p0 env st cand = fuzzyStep_p0 env st cand) ∧
    (∀ rest, (env.autocomplete cand = .success [] ∨ env.autocomplete cand = .failure ∨
       env.autocomplete cand = .netError) →
       searchMultipleFuzzy_p2 env st (cand :: rest) = searchMultipleFuzzy_p2 env st rest) := by
  refine ⟨?_, ?_, ?_⟩
  · intro s rest h
    simp [searchByName_p0, h, fuzzyStep_p0]
  · rintro (h | h) <;> simp [searchByName_p0, h, fuzzyStep_p0]
  · rintro rest (h | h | h) <;> simp [searchMultipleFuzzy_p2, h]

/-- Counterexample for C6 as stated: autocomplete returns no suggestion
while a fuzzy lookup with the candidate itself would succeed, yet
`searchMultipleFuzzy` reports nothing found — the candidate itself is
never used as the fuzzy query. -/
theorem nameState_refined_query_cex :
    searchMultipleFuzzy_p2 envNoSuggest st0 ["Lightning Bolt"] = (st0, false) ∧
    envNoSuggest.autocomplete ("Lightning Bolt") = .success [] ∧
    envNoSuggest.fuzzy ("Lightning Bolt") = .success cardBolt :=
  ⟨rfl, rfl, rfl⟩

/-- Witness for C6 (amended): the top suggestion becomes the fuzzy query. -/
theorem nameState_refined_query_witness :
    searchByName_p0 envNotFound st0 ("Bolt") =
      fuzzyStep_p0 envNotFound st0 ("Lightning Bolt") :=
  (nameState_refined_query envNotFound st0 ("Bolt")).1 ("Lightning Bolt") [] rfl

/-! ## C3 — what name cleaning actually guarantees -/

/-- `true` iff the list does not start with a whitespace character. -/
def headNotWs : List Char → Bool
  | [] => true
  | c :: _ => !isJsWs c

/-- `true` iff the list has no two adjacent whitespace characters. -/
def noWsRun : List Char → Bool
  | [] => true
  | [_] => true
  | a :: b :: rest => (!(isJsWs a && isJsWs b)) && noWsRun (b :: rest)

theorem collapseWsAux_true_head : ∀ l : List Char,
    headNotWs (collapseWsAux true l) = true := by
  intro l
  induction l with
  | nil => rfl
  | cons d ds ih =>
    by_cases hws : isJsWs d
    · simpa [collapseWsAux, hws] using ih
    · simp [collapseWsAux, hws, headNotWs]

theorem collapseWsAux_noWsRun : ∀ (l : List Char) (prev : Bool),
    noWsRun (collapseWsAux prev l) = true := by
  intro l
  induction l with
  | nil => intro prev; rfl
  | cons d ds ih =>
    intro prev
    by_cases hws : isJsWs d
    · cases prev
      · have hh := collapseWsAux_true_head ds
        have ht := ih true
        cases hX : collapseWsAux true ds with
        | nil => simp [collapseWsAux, hws, hX, noWsRun]
        | cons y ys =>
          rw [hX] at hh ht
          simp only [headNotWs, Bool.not_eq_true'] at hh
          simp [collapseWsAux, hws, hX, noWsRun, hh, ht]
      · simpa [collapseWsAux, hws] using ih true
    · cases hX : collapseWsAux false ds with
      | nil => simp [collapseWsAux, hws, hX, noWsRun]
      | cons y ys =>
        have ht := ih false
        rw [hX] at ht
        simp [collapseWsAux, hws, hX, noWsRun, ht]

theorem collapseWsAux_mem {c : Char} : ∀ (l : List Char) (prev : Bool),
    c ∈ collapseWsAux prev l → c ∈ l ∨ c = ' ' := by
  intro l
  induction l with
  | nil => intro prev h; simp [collapseWsAux] at h
  | cons d ds ih =>
    intro prev h
    by_cases hws : isJsWs d
    · cases prev
      · simp only [collapseWsAux, hws, if_pos, if_true, Bool.false_eq_true, if_false,
          List.mem_cons] at h
        rcases h with h | h
        · right; exact h
        · rcases ih true h with h2 | h2
          · left; exact List.mem_cons_of_mem _ h2
          · right; exact h2
      · simp only [collapseWsAux, hws, if_true] at h
        rcases ih true h with h2 | h2
        · left; exact List.mem_cons_of_mem _ h2
        · right; exact h2
    · simp only [collapseWsAux, hws, if_false, Bool.false_eq_true, List.mem_cons] at h
      rcases h with h | h
      · left; simp [h]
      · rcases ih false h with h2 | h2
        · left; exact List.mem_cons_of_mem _ h2
        · right; exact h2

/-- C3 (amended): cleaning first trims the *raw* input and then replaces
every character outside `[a-zA-Z\s]` — with a space in part_000, with a
space followed by whitespace-run collapsing in part_004 — so the output
consists only of Latin letters and whitespace (and in part_004 contains no
two adjacent whitespace characters); but because the trim precedes the
substitution, the output may carry leading or trailing spaces introduced
by substituted characters. -/
theorem cleanName_class (s : String) :
    (∀ c ∈ (cleanName_p0 s).data, isLatinLetter c = true ∨ isJsWs c = true) ∧
    (∀ c ∈ (cleanName_p4 s).data, isLatinLetter c = true ∨ isJsWs c = true) ∧
    noWsRun (cleanName_p4 s).data = true := by
  refine ⟨?_, ?_, ?_⟩
  · intro c hc
    simp only [cleanName_p0, List.mem_map] at hc
    rcases hc with ⟨d, _, hmap⟩
    by_cases hclass : isLatinLetter d || isJsWs d
    · rw [if_pos hclass] at hmap
      subst hmap
      simpa using hclass
    · rw [if_neg hclass] at hmap
      subst hmap
      right; rfl
  · intro c hc
    simp only [cleanName_p4, collapseWs] at hc
    rcases collapseWsAux_mem _ _ hc with h | h
    · simp only [List.mem_map] at h
      rcases h with ⟨d, _, hmap⟩
      by_cases hclass : isLatinLetter d || isJsWs d
      · rw [if_pos hclass] at hmap
        subst hmap
        simpa using hclass
      · rw [if_neg hclass] at hmap
        subst hmap
        right; rfl
    · subst h
      right; rfl
  · simpa [cleanName_p4, collapseWs] using
      collapseWsAux_noWsRun ((trimChars s.data).map
        (fun c => if isLatinLetter c || isJsWs c then c else ' ')) false

/-- Counterexample for C3 as stated: the OCR text `abc1` cleans to
`"abc "` in both cited variants — the substituted final character leaves a
trailing space, so the output is *not* free of trailing whitespace. -/
theorem cleanName_trailing_cex :
    cleanName_p0 ("abc1") = "abc " ∧ cleanName_p4 ("abc1") = "abc " ∧
    (cleanName_p0 ("abc1")).data.getLast? = some ' ' ∧
    isJsWs ' ' = true := by decide

/-- Witness for C3 (amended) at a concrete input and character. -/
theorem cleanName_class_witness : isLatinLetter 'a' = true ∨ isJsWs 'a' = true :=
  (cleanName_class ("ab")).1 'a' (by decide)

/-! ## C4 — collector-info extraction: positional lemmas -/

theorem ws_not_alnum (c : Char) (h : isJsWs c = true) : isAlnumC c = false := by
  simp only [isJsWs, Bool.or_eq_true, decide_eq_true_eq] at h
  rcases h with (((((h | h) | h) | h) | h) | h) <;> subst h <;> decide

theorem ws_not_digit (c : Char) (h : isJsWs c = true) : isDigitC c = false := by
  simp only [isJsWs, Bool.or_eq_true, decide_eq_true_eq] at h
  rcases h with (((((h | h) | h) | h) | h) | h) <;> subst h <;> decide

theorem digit_not_ws (c : Char) (h : isDigitC c = true) : isJsWs c = false := by
  cases hw : isJsWs c with
  | false => rfl
  | true => rw [ws_not_digit c hw] at h; exact absurd h (by simp)

theorem digit_alnum (c : Char) (h : isDigitC c = true) : isAlnumC c = true := by
  simp [isAlnumC, h]

theorem takeAlnum_append_drop : ∀ l : List Char,
    takeAlnum l ++ l.drop (takeAlnum l).length = l := by
  intro l
  induction l with
  | nil => rfl
  | cons c cs ih =>
    by_cases h : isAlnumC c
    · simp [takeAlnum, h, ih]
    · simp [takeAlnum, h]

theorem takeAlnum_mem : ∀ l : List Char, ∀ c ∈ takeAlnum l, isAlnumC c = true := by
  intro l
  induction l with
  | nil => intro c hc; simp [takeAlnum] at hc
  | cons d ds ih =>
    intro c hc
    by_cases h : isAlnumC d
    · simp only [takeAlnum, h, if_true, List.mem_cons] at hc
      rcases hc with hc | hc
      · subst hc; exact h
      · exact ih c hc
    · simp [takeAlnum, h] at hc

theorem takeAlnum_all_append : ∀ (a rest : List Char),
    (∀ c ∈ a, isAlnumC c = true) → takeAlnum (a ++ rest) = a ++ takeAlnum rest := by
  intro a
  induction a with
  | nil => intro rest _; rfl
  | cons d ds ih =>
    intro rest ha
    have hd : isAlnumC d = true := ha d (by simp)
    simp only [List.cons_append, takeAlnum, hd, if_true, List.cons.injEq, true_and]
    exact ih rest (fun c hc => ha c (by simp [hc]))

theorem dropWs_all_append : ∀ (ws rest : List Char),
    (∀ c ∈ ws, isJsWs c = true) → dropWs (ws ++ rest) = dropWs rest := by
  intro ws
  induction ws with
  | nil => intro rest _; rfl
  | cons w ws' ih =>
    intro rest hw
    have : isJsWs w = true := hw w (by simp)
    simp only [List.cons_append, dropWs, this, if_true]
    exact ih rest (fun c hc => hw c (by simp [hc]))

theorem dropWs_split : ∀ l : List Char,
    ∃ ws, l = ws ++ dropWs l ∧ ∀ c ∈ ws, isJsWs c = true := by
  intro l
  induction l with
  | nil => exact ⟨[], rfl, by simp⟩
  | cons c cs ih =>
    by_cases h : isJsWs c
    · rcases ih with ⟨ws, hsplit, hws⟩
      refine ⟨c :: ws, ?_, ?_⟩
      · simp only [dropWs, h, if_true, List.cons_append]
        exact congrArg (c :: ·) hsplit
      · intro d hd
        rcases List.mem_cons.mp hd with hd | hd
        · subst hd; exact h
        · exact hws d hd
    · exact ⟨[], by simp [dropWs, h], by simp⟩

theorem takeDigits_mem : ∀ l : List Char, ∀ c ∈ takeDigits l, isDigitC c = true := by
  intro l
  induction l with
  | nil => intro c hc; simp [takeDigits] at hc
  | cons d ds ih =>
    intro c hc
    by_cases h : isDigitC d
    · simp only [takeDigits, h, if_true, List.mem_cons] at hc
      rcases hc with hc | hc
      · subst hc; exact h
      · exact ih c hc
    · simp [takeDigits, h] at hc

theorem takeDigits_prefix : ∀ l : List Char, ∃ rest, l = takeDigits l ++ rest := by
  intro l
  induction l with
  | nil => exact ⟨[], rfl⟩
  | cons d ds ih =>
    by_cases h : isDigitC d
    · rcases ih with ⟨rest, hrest⟩
      exact ⟨rest, by simp only [takeDigits, h, if_true, List.cons_append]
                      exact congrArg (d :: ·) hrest⟩
    · exact ⟨d :: ds, by simp [takeDigits, h]⟩

theorem matchTail_sound (l g2 : List Char) (h : matchTail l = some g2) :
    ∃ ws suf, l = ws ++ g2 ++ suf ∧ (∀ c ∈ ws, isJsWs c = true) ∧ g2 ≠ [] ∧
      (∀ c ∈ g2, isDigitC c = true) := by
  simp only [matchTail] at h
  by_cases hne : takeDigits (dropWs l) = []
  · simp [hne] at h
  · rw [if_neg hne] at h
    have hg2 : g2 = takeDigits (dropWs l) := by
      injection h with h'
      exact h'.symm
    subst hg2
    rcases dropWs_split l with ⟨ws, hsplit, hws⟩
    rcases takeDigits_prefix (dropWs l) with ⟨suf, hsuf⟩
    refine ⟨ws, suf, ?_, hws, hne, takeDigits_mem _⟩
    rw [List.append_assoc, ← hsuf]
    exact hsplit

theorem matchTail_complete (ws ds suf : List Char)
    (hws : ∀ c ∈ ws, isJsWs c = true) (hne : ds ≠ [])
    (hdig : ∀ c ∈ ds, isDigitC c = true) :
    matchTail (ws ++ ds ++ suf) ≠ none := by
  cases ds with
  | nil => exact absurd rfl hne
  | cons d ds' =>
    have hd : isDigitC d = true := hdig d (by simp)
    have hw : isJsWs d = false := digit_not_ws d hd
    have h1 : dropWs (ws ++ (d :: ds') ++ suf) = d :: (ds' ++ suf) := by
      rw [List.append_assoc, dropWs_all_append ws _ hws]
      simp [dropWs, hw]
    simp only [matchTail, h1, takeDigits, hd, if_true]
    simp
/-- Spec-side predicate: position `i` of `l` starts an occurrence of
`[A-Za-z0-9]{3,}` followed by optional whitespace and one-or-more digits
(the pattern of part_001/part_004/part_006; case-insensitivity is already
built into the classes). -/
def IsOccurrence (l : List Char) (i : ℕ) : Prop :=
  ∃ a ws ds suf, l.drop i = a ++ ws ++ ds ++ suf ∧
    (∀ c ∈ a, isAlnumC c = true) ∧ 3 ≤ a.length ∧
    (∀ c ∈ ws, isJsWs c = true) ∧ ds ≠ [] ∧ (∀ c ∈ ds, isDigitC c = true)

theorem tryG1_complete : ∀ (dropped kept rest : List Char),
    3 ≤ kept.length → matchTail (dropped.reverse ++ rest) ≠ none →
    tryG1 (dropped ++ kept) rest ≠ none := by
  intro dropped
  induction dropped with
  | nil =>
    intro kept rest h3 hmt
    cases kept with
    | nil => simp at h3
    | cons c ks =>
      simp only [List.reverse_nil, List.nil_append] at hmt
      simp only [List.nil_append]
      unfold tryG1
      rw [if_pos (by simpa using h3)]
      cases hm : matchTail rest with
      | none => exact absurd hm hmt
      | some g2 => simp
  | cons d ds ih =>
    intro kept rest h3 hmt
    show tryG1 (d :: (ds ++ kept)) rest ≠ none
    unfold tryG1
    have hlen : 3 ≤ (d :: (ds ++ kept)).length := by
      simp only [List.length_cons, List.length_append]
      omega
    rw [if_pos hlen]
    cases hm : matchTail rest with
    | some g2 => simp
    | none =>
      apply ih kept (d :: rest) h3
      have heq : ds.reverse ++ d :: rest = (d :: ds).reverse ++ rest := by simp
      rw [heq]
      exact hmt

theorem tryG1_sound : ∀ (gr rest g1 g2 : List Char),
    tryG1 gr rest = some (g1, g2) →
    ∃ dropped, gr = dropped ++ g1.reverse ∧ 3 ≤ g1.length ∧
      matchTail (dropped.reverse ++ rest) = some g2 := by
  intro gr
  induction gr with
  | nil => intro rest g1 g2 h; simp [tryG1] at h
  | cons c gr' ih =>
    intro rest g1 g2 h
    unfold tryG1 at h
    by_cases hlen : 3 ≤ (c :: gr').length
    · rw [if_pos hlen] at h
      cases hm : matchTail rest with
      | some g2' =>
          rw [hm] at h
          injection h with h'
          injection h' with hA hB
          refine ⟨[], by simp [← hA], ?_, ?_⟩
          · rw [← hA]
            simpa using hlen
          · rw [List.reverse_nil, List.nil_append, hm, hB]
      | none =>
          rw [hm] at h
          rcases ih (c :: rest) g1 g2 h with ⟨d, hd, h3, hmt⟩
          refine ⟨c :: d, by simp [hd], h3, ?_⟩
          have heq : (c :: d).reverse ++ rest = d.reverse ++ (c :: rest) := by simp
          rw [heq]
          exact hmt
    · rw [if_neg hlen] at h
      cases h

theorem tryStartG_sound (l g1 g2 : List Char) (h : tryStartG l = some (g1, g2)) :
    ∃ ws suf, l = g1 ++ ws ++ g2 ++ suf ∧ (∀ c ∈ g1, isAlnumC c = true) ∧
      3 ≤ g1.length ∧ (∀ c ∈ ws, isJsWs c = true) ∧ g2 ≠ [] ∧
      (∀ c ∈ g2, isDigitC c = true) := by
  unfold tryStartG at h
  rcases tryG1_sound _ _ _ _ h with ⟨dropped, hd, h3, hmt⟩
  have hrun : takeAlnum l = g1 ++ dropped.reverse := by
    have h2 := congrArg List.reverse hd
    simpa using h2
  rcases matchTail_sound _ _ hmt with ⟨ws, suf, hsplit, hws, hne, hdig⟩
  refine ⟨ws, suf, ?_, ?_, h3, hws, hne, hdig⟩
  · have hl := takeAlnum_append_drop l
    calc l = takeAlnum l ++ l.drop (takeAlnum l).length := hl.symm
    _ = (g1 ++ dropped.reverse) ++ l.drop (takeAlnum l).length := by rw [← hrun]
    _ = g1 ++ (dropped.reverse ++ l.drop (takeAlnum l).length) := by rw [List.append_assoc]
    _ = g1 ++ (ws ++ g2 ++ suf) := by rw [hsplit]
    _ = g1 ++ ws ++ g2 ++ suf := by simp [List.append_assoc]
  · intro c hc
    apply takeAlnum_mem l
    rw [hrun]
    exact List.mem_append_left _ hc

theorem tryStartG_complete (a ws ds suf : List Char)
    (ha : ∀ c ∈ a, isAlnumC c = true) (h3 : 3 ≤ a.length)
    (hws : ∀ c ∈ ws, isJsWs c = true) (hne : ds ≠ [])
    (hdig : ∀ c ∈ ds, isDigitC c = true) :
    tryStartG (a ++ ws ++ ds ++ suf) ≠ none := by
  cases hwsE : ws with
  | cons w ws' =>
    subst hwsE
    have hwAl : isAlnumC w = false := ws_not_alnum w (hws w (by simp))
    have hrun : takeAlnum (a ++ (w :: ws') ++ ds ++ suf) = a := by
      rw [List.append_assoc, List.append_assoc, takeAlnum_all_append a _ ha]
      simp [takeAlnum, hwAl]
    unfold tryStartG
    rw [hrun]
    have hdrop : (a ++ (w :: ws') ++ ds ++ suf).drop a.length =
        (w :: ws') ++ ds ++ suf := by
      rw [List.append_assoc, List.append_assoc]
      rw [List.drop_left]
      simp [List.append_assoc]
    rw [hdrop]
    have := tryG1_complete [] a.reverse ((w :: ws') ++ ds ++ suf)
      (by simpa using h3)
      (by
        simp only [List.reverse_nil, List.nil_append]
        simpa [List.append_assoc] using matchTail_complete (w :: ws') ds suf hws hne hdig)
    simpa using this
  | nil =>
    subst hwsE
    simp only [List.append_nil, List.nil_append]
    have hads : ∀ c ∈ a ++ ds, isAlnumC c = true := by
      intro c hc
      rcases List.mem_append.mp hc with hc | hc
      · exact ha c hc
      · exact digit_alnum c (hdig c hc)
    have hrun : takeAlnum ((a ++ ds) ++ suf) = (a ++ ds) ++ takeAlnum suf :=
      takeAlnum_all_append _ _ hads
    have hl : a ++ ds ++ suf = ((a ++ ds) ++ takeAlnum suf) ++
        suf.drop (takeAlnum suf).length := by
      rw [List.append_assoc ((a ++ ds)) (takeAlnum suf) _]
      rw [takeAlnum_append_drop suf]
    unfold tryStartG
    have hrun2 : takeAlnum (a ++ ds ++ suf) = (a ++ ds) ++ takeAlnum suf := hrun
    rw [hrun2]
    have hdrop : (a ++ ds ++ suf).drop ((a ++ ds) ++ takeAlnum suf).length =
        suf.drop (takeAlnum suf).length := by
      conv_lhs => rw [hl]
      rw [List.drop_left]
    rw [hdrop]
    have hgr : ((a ++ ds) ++ takeAlnum suf).reverse =
        (ds ++ takeAlnum suf).reverse ++ a.reverse := by
      simp [List.append_assoc]
    rw [hgr]
    apply tryG1_complete ((ds ++ takeAlnum suf).reverse) a.reverse _
      (by simpa using h3)
    rw [List.reverse_reverse]
    have heq : (ds ++ takeAlnum suf) ++ suf.drop (takeAlnum suf).length =
        ds ++ (takeAlnum suf ++ suf.drop (takeAlnum suf).length) := by
      simp [List.append_assoc]
    rw [heq, takeAlnum_append_drop suf]
    have := matchTail_complete [] ds suf hws hne hdig
    simpa using this

theorem findInfoMatch_cons (c : Char) (cs : List Char) :
    findInfoMatch (c :: cs) =
      match tryStartG (c :: cs) with
      | some r => some r
      | none => findInfoMatch cs := rfl

theorem IsOccurrence_succ (c : Char) (cs : List Char) (j : ℕ) :
    IsOccurrence (c :: cs) (j + 1) ↔ IsOccurrence cs j := by
  simp [IsOccurrence, List.drop_succ_cons]

theorem findInfoMatch_complete : ∀ (l : List Char) (i : ℕ),
    IsOccurrence l i → findInfoMatch l ≠ none := by
  intro l
  induction l with
  | nil =>
    intro i h
    rcases h with ⟨a, ws, ds, suf, hsplit, _, h3, _, _, _⟩
    rw [List.drop_nil] at hsplit
    have ha : a = [] := by
      cases a with
      | nil => rfl
      | cons x xs => simp at hsplit
    subst ha
    simp at h3
  | cons c cs ih =>
    intro i h
    rw [findInfoMatch_cons]
    cases ht : tryStartG (c :: cs) with
    | some r => simp
    | none =>
      simp only
      cases i with
      | zero =>
        exfalso
        rcases h with ⟨a, ws, ds, suf, hsplit, ha, h3, hws, hne, hdig⟩
        rw [List.drop_zero] at hsplit
        rw [hsplit] at ht
        exact tryStartG_complete a ws ds suf ha h3 hws hne hdig ht
      | succ j =>
        exact ih j ((IsOccurrence_succ c cs j).mp h)

theorem findInfoMatch_sound : ∀ (l g1 g2 : List Char),
    findInfoMatch l = some (g1, g2) →
    ∃ pre rest, l = pre ++ rest ∧ tryStartG rest = some (g1, g2) ∧
      ∀ j < pre.length, tryStartG (l.drop j) = none := by
  intro l
  induction l with
  | nil => intro g1 g2 h; simp [findInfoMatch] at h
  | cons c cs ih =>
    intro g1 g2 h
    rw [findInfoMatch_cons] at h
    cases ht : tryStartG (c :: cs) with
    | some r =>
      rw [ht] at h
      simp only [Option.some.injEq] at h
      subst h
      exact ⟨[], c :: cs, rfl, ht, by simp⟩
    | none =>
      rw [ht] at h
      simp only at h
      rcases ih g1 g2 h with ⟨pre, rest, hsplit, hmatch, hnone⟩
      refine ⟨c :: pre, rest, by simp [hsplit], hmatch, ?_⟩
      intro j hj
      cases j with
      | zero => simpa using ht
      | succ j' =>
        rw [List.drop_succ_cons]
        exact hnone j' (by simpa using hj)

/-- C4 (amended): the `{3,}` extraction used by part_001, part_004 and
part_006 succeeds exactly when the text contains an alphanumeric run of
three-or-more characters followed by optional whitespace and at least one
digit; on success it returns the groups of the *leftmost* such occurrence
under the engine's greedy backtracking (so the digit group may be carved
out of the tail of the alphanumeric run) — in their *original case*, with
no upper-casing; and when extraction fails, the part_006 pipeline falls
back to name-based search (given a usable cleaned title), not to an
error. -/
theorem infoExtraction_characterization (s : String) (env : LookupEnv)
    (st : SessionState) (title : String) :
    ((extractCodes s).isSome ↔ ∃ i, IsOccurrence s.data i) ∧
    (∀ g1 g2, extractCodes s = some (g1, g2) →
       ∃ pre ws suf, s.data = pre ++ g1.data ++ ws ++ g2.data ++ suf ∧
         (∀ c ∈ g1.data, isAlnumC c = true) ∧ 3 ≤ g1.data.length ∧
         (∀ c ∈ ws, isJsWs c = true) ∧ g2.data ≠ [] ∧
         (∀ c ∈ g2.data, isDigitC c = true) ∧
         (∀ j < pre.length, ¬ IsOccurrence s.data j)) ∧
    (extractCodes s = none → 3 < (cleanName_p6 title).length →
       scanDecision_p6 env st title s = searchByName_p6 env st (cleanName_p6 title)) := by
  refine ⟨⟨?_, ?_⟩, ?_, ?_⟩
  · intro hsome
    rcases Option.isSome_iff_exists.mp hsome with ⟨p, hp⟩
    simp only [extractCodes, Option.map_eq_some'] at hp
    rcases hp with ⟨⟨l1, l2⟩, hq, _⟩
    rcases findInfoMatch_sound _ _ _ hq with ⟨pre, rest, hsplit, hmatch, _⟩
    rcases tryStartG_sound _ _ _ hmatch with ⟨ws, suf, hrest, ha, h3, hws, hne, hdig⟩
    refine ⟨pre.length, l1, ws, l2, suf, ?_, ha, h3, hws, hne, hdig⟩
    rw [hsplit, List.drop_left, hrest]
  · rintro ⟨i, hocc⟩
    have hne := findInfoMatch_complete s.data i hocc
    rcases Option.ne_none_iff_exists'.mp hne with ⟨p, hp⟩
    simp [extractCodes, hp]
  · intro g1 g2 hx
    simp only [extractCodes, Option.map_eq_some'] at hx
    rcases hx with ⟨⟨l1, l2⟩, hq, hpair⟩
    have hg1 : g1 = String.mk l1 := by
      have := congrArg Prod.fst hpair
      simpa using this.symm
    have hg2 : g2 = String.mk l2 := by
      have := congrArg Prod.snd hpair
      simpa using this.symm
    subst hg1
    subst hg2
    rcases findInfoMatch_sound _ _ _ hq with ⟨pre, rest, hsplit, hmatch, hnone⟩
    rcases tryStartG_sound _ _ _ hmatch with ⟨ws, suf, hrest, ha, h3, hws, hne, hdig⟩
    refine ⟨pre, ws, suf, ?_, ha, h3, hws, hne, hdig, ?_⟩
    · rw [hsplit, hrest]
      simp [List.append_assoc]
    · intro j hj hocc
      rcases hocc with ⟨a, ws', ds', suf', hsplit', ha', h3', hws', hne', hdig'⟩
      have := hnone j hj
      rw [hsplit'] at this
      exact tryStartG_complete a ws' ds' suf' ha' h3' hws' hne' hdig' this
  · intro hnone hlen
    simp [scanDecision_p6, hnone, hlen]

/-- Witness for C4 (amended): text with no pattern occurrence makes the
pipeline fall through to name-based search. -/
theorem infoExtraction_characterization_witness :
    scanDecision_p6 envPT st0 ("Lightning Bolt") ("no codes") =
      searchByName_p6 envPT st0 (cleanName_p6 ("Lightning Bolt")) :=
  (infoExtraction_characterization ("no codes") envPT st0 ("Lightning Bolt")).2.2
    (by decide) (by decide)

/-- Counterexample for C4 as stated: the cited `{3,}` variants return the
group in its original case (`"mid"`, not `"MID"`), and part_000's regex
requires exactly three *letters*, so on `MIDN 245` it returns `IDN`/`245`
where the claimed pattern's first match has letter group `MIDN`. -/
theorem infoExtraction_uppercase_cex :
    extractCodes ("mid 245") = some (("mid" : String), ("245" : String)) ∧
    ("mid" : String) ≠ ("MID" : String) ∧
    extractCodes ("MIDN 245") = some (("MIDN" : String), ("245" : String)) ∧
    extractInfo_p0 ("MIDN 245") = some (("IDN" : String), ("245" : String)) := by
  refine ⟨?_, ?_, ?_, ?_⟩ <;> decide
